import Mathlib

/-
  Verification development for the bindexer repository.

  The definitions below are shallow embeddings of the TypeScript source:
  - loopRanges embeds loopThroughBlocks (utils/seeder, src/unnamed/part_007)
  - midBlock, pcer embed processContractEventRange and getContractLogs
    (src/unnamed/part_001)
  - getSqlTypeFromEthType, formatValueForSql, saveLogToDatabase,
    getLogsFromDatabase embed the database layer (utils/dbClient,
    src/unnamed/part_006)

  JavaScript bigints are modelled as Int, block numbers as Nat, JavaScript
  strings as Lean strings, and the JavaScript value universe that can occur
  as a decoded event argument as the inductive JsValue below.
-/

namespace Bindexer

/-- Substring matching at the head of a character list; helper for the
JavaScript String.prototype.includes model. -/
def charsMatchAt : List Char → List Char → Bool
  | [], _ => true
  | _ :: _, [] => false
  | c :: cs, d :: ds => c == d && charsMatchAt cs ds

/-- Does the haystack contain the needle as a contiguous run; helper for the
JavaScript String.prototype.includes model. -/
def charsContain : List Char → List Char → Bool
  | [], sub => sub.isEmpty
  | c :: t, sub => charsMatchAt sub (c :: t) || charsContain t sub

/-- Model of the case-sensitive JavaScript s.includes(sub). -/
def strIncludes (s sub : String) : Bool :=
  charsContain s.data sub.data

/-- Model of the JavaScript s.startsWith(p). -/
def strStartsWith (s p : String) : Bool :=
  charsMatchAt p.data s.data

/-- Model of JavaScript Array.prototype.join with a separator. -/
def joinSep (sep : String) : List String → String
  | [] => ""
  | [x] => x
  | x :: xs => x ++ sep ++ joinSep sep xs

/-- The JavaScript values that occur as decoded event arguments in this
program: null or undefined collapse to jsNull, numbers, bigints, strings,
and arrays. -/
inductive JsValue where
  | jsNull
  | jsBool (b : Bool)
  | jsNum (n : Int)
  | jsBigInt (n : Int)
  | jsStr (s : String)
  | jsArr (elems : List JsValue)

/-- Escape of quote and backslash characters, for the JSON.stringify model. -/
def jsonEscape (s : String) : String :=
  String.mk (s.data.foldr
    (fun c acc => if c == '"' || c == '\\' then '\\' :: c :: acc else c :: acc) [])

mutual

/-- Model of the JSON.stringify builtin on the JsValue fragment: none models
the TypeError that JSON.stringify raises on a bigint. -/
def jsonStringify : JsValue → Option String
  | .jsNull => some "null"
  | .jsBool b => some (cond b "true" "false")
  | .jsNum n => some (toString n)
  | .jsBigInt _ => none
  | .jsStr s => some ("\"" ++ jsonEscape s ++ "\"")
  | .jsArr l =>
    match jsonStringifyList l with
    | some parts => some ("[" ++ joinSep "," parts ++ "]")
    | none => none

/-- Elementwise JSON.stringify over an array body. -/
def jsonStringifyList : List JsValue → Option (List String)
  | [] => some []
  | v :: vs =>
    match jsonStringify v, jsonStringifyList vs with
    | some s, some rest => some (s :: rest)
    | _, _ => none

end

/-- Embedding of formatValueForSql from utils/dbClient: null and undefined
become SQL null, arrays (and objects) are serialized with JSON.stringify,
bigints become their decimal string, everything else passes through. The
Except layer models the exception JSON.stringify raises on bigint
elements, which the callers catch. -/
def formatValueForSql : JsValue → Except String JsValue
  | .jsNull => .ok .jsNull
  | .jsArr l =>
    match jsonStringify (.jsArr l) with
    | some s => .ok (.jsStr s)
    | none => .error "Do not know how to serialize a BigInt"
  | .jsBigInt n => .ok (.jsStr (toString n))
  | v => .ok v

/-- Embedding of getSqlTypeFromEthType from utils/dbClient, branch for
branch: integer tags that contain the digit runs 256 or 128 become TEXT,
all other integer tags become INTEGER; then address, bool, bytes, string,
array and default branches. -/
def getSqlTypeFromEthType (ethType : String) : String :=
  if strStartsWith ethType "uint" || strStartsWith ethType "int" then
    if strIncludes ethType "256" || strIncludes ethType "128" then "TEXT" else "INTEGER"
  else if ethType = "address" then "TEXT"
  else if ethType = "bool" then "BOOLEAN"
  else if strStartsWith ethType "bytes" then "BLOB"
  else if ethType = "string" then "TEXT"
  else if strIncludes ethType "[]" then "TEXT"
  else "TEXT"

/-- Decides whether a list of inclusive ranges tiles the interval from c to
last: each range starts exactly where the previous one ended plus one, is
nonempty and stays inside the interval, and the last one ends at last. -/
def tilesFrom : Nat → Nat → List (Nat × Nat) → Bool
  | c, last, [] => decide (c = last + 1)
  | c, last, (a, b) :: rs =>
    decide (a = c) && decide (a ≤ b) && decide (b ≤ last) && tilesFrom (b + 1) last rs

/-- One iteration layer of the while loop of loopThroughBlocks: at the top of
an iteration the callback range is (c, min (c + batch) last) and the loop
continues only while the emitted end is still below last. The fuel argument
is an upper bound on the number of iterations; loopRanges supplies enough. -/
def loopAux (last batch : Nat) : Nat → Nat → List (Nat × Nat)
  | 0, _ => []
  | fuel + 1, c =>
    (c, min (c + batch) last) ::
      (if min (c + batch) last < last then loopAux last batch fuel (min (c + batch) last + 1)
       else [])

/-- Embedding of loopThroughBlocks from utils/seeder: the list of
(fromBlock, toBlock) pairs with which the callback is invoked, in order.
The while condition is tested on nextBlock, which equals firstBlock before
the first iteration, so nothing at all is emitted unless
firstBlock < lastBlock. -/
def loopRanges (first last batch : Nat) : List (Nat × Nat) :=
  if first < last then loopAux last batch (last - first + 1) first else []

theorem loopAux_tiles (last batch : Nat) :
    ∀ fuel c, c ≤ last → last - c < fuel →
      tilesFrom c last (loopAux last batch fuel c) = true := by
  intro fuel
  induction fuel with
  | zero => intro c hc hf; omega
  | succ fuel ih =>
    intro c hc hf
    have hmc : c ≤ min (c + batch) last := Nat.le_min.mpr ⟨Nat.le_add_right _ _, hc⟩
    have hml : min (c + batch) last ≤ last := Nat.min_le_right _ _
    simp only [loopAux]
    by_cases he : min (c + batch) last < last
    · rw [if_pos he]
      simp only [tilesFrom, Bool.and_eq_true, decide_eq_true_eq]
      exact ⟨⟨⟨trivial, hmc⟩, hml⟩, ih (min (c + batch) last + 1) (by omega) (by omega)⟩
    · rw [if_neg he]
      simp only [tilesFrom, Bool.and_eq_true, decide_eq_true_eq]
      exact ⟨⟨⟨trivial, hmc⟩, hml⟩, by omega⟩

theorem loopAux_mem_bounds (last batch : Nat) :
    ∀ fuel c, c ≤ last → ∀ r ∈ loopAux last batch fuel c,
      r.1 ≤ r.2 ∧ r.2 ≤ r.1 + batch := by
  intro fuel
  induction fuel with
  | zero => intro c hc r hr; simp [loopAux] at hr
  | succ fuel ih =>
    intro c hc r hr
    have hmc : c ≤ min (c + batch) last := Nat.le_min.mpr ⟨Nat.le_add_right _ _, hc⟩
    have hml : min (c + batch) last ≤ last := Nat.min_le_right _ _
    have hm1 : min (c + batch) last ≤ c + batch := Nat.min_le_left _ _
    simp only [loopAux, List.mem_cons] at hr
    rcases hr with h | h
    · subst h; exact ⟨hmc, hm1⟩
    · by_cases he : min (c + batch) last < last
      · rw [if_pos he] at h
        exact ih (min (c + batch) last + 1) (by omega) r h
      · rw [if_neg he] at h
        simp at h

/-- C1 counterexample: the claim fails on the code at two concrete inputs.
With firstBlock = lastBlock = 5 the while condition nextBlock < lastBlock is
false at entry, so no callback range is emitted and the interval is not
tiled. With firstBlock 0, lastBlock 2, batchSize 1 the first emitted range
is (0, 1), whose inclusive length 2 exceeds batchSize = 1, because the loop
emits nextBlock = currentBlock + batchSize, an inclusive span of
batchSize + 1 blocks. -/
theorem loopRanges_claimC1_counterexample :
    loopRanges 5 5 3 = [] ∧
    tilesFrom 5 5 (loopRanges 5 5 3) = false ∧
    (0, 1) ∈ loopRanges 0 2 1 ∧ ¬ (1 - 0 + 1 ≤ 1) := by decide

/-- C1 amended: for firstBlock < lastBlock and batchSize ≥ 1 the emitted
ranges exactly tile the inclusive interval (contiguous, non-overlapping,
union the whole interval) and each range has inclusive length at most
batchSize + 1; for firstBlock = lastBlock no range is emitted at all. -/
theorem loopRanges_tiling (first last batch : Nat) (_hb : 1 ≤ batch) :
    (first < last →
      tilesFrom first last (loopRanges first last batch) = true ∧
      ∀ r ∈ loopRanges first last batch, r.1 ≤ r.2 ∧ r.2 - r.1 + 1 ≤ batch + 1) ∧
    (first = last → loopRanges first last batch = []) := by
  constructor
  · intro hfl
    unfold loopRanges
    rw [if_pos hfl]
    refine ⟨loopAux_tiles last batch _ first (le_of_lt hfl) (by omega), ?_⟩
    intro r hr
    have h := loopAux_mem_bounds last batch _ first (le_of_lt hfl) r hr
    omega
  · intro hfl
    unfold loopRanges
    rw [if_neg (by omega)]

/-- C1 witness: the amended statement evaluated at concrete inputs. -/
theorem loopRanges_tiling_witness :
    tilesFrom 0 2 (loopRanges 0 2 1) = true ∧ loopRanges 3 3 2 = [] := by
  refine ⟨((loopRanges_tiling 0 2 1 (by decide)).1 (by decide)).1, ?_⟩
  exact (loopRanges_tiling 3 3 2 (by decide)).2 rfl

/-- C2 counterexample: over the interval 1 to 10000 with batchSize 4999 the
code invokes the callback exactly twice, not three times, and not with the
ranges the claim lists. -/
theorem loopRanges_scenarioB_counterexample :
    loopRanges 1 10000 4999 ≠ [(1, 4999), (5000, 9998), (9999, 10000)] ∧
    (loopRanges 1 10000 4999).length = 2 := by decide

/-- C2 amended: the backfill over the interval 1 to 10000 with batchSize
4999 invokes the callback exactly 2 times, with the ranges (1, 5000) and
(5001, 10000) in that order, because each emitted span covers
batchSize + 1 blocks. -/
theorem loopRanges_scenarioB :
    loopRanges 1 10000 4999 = [(1, 5000), (5001, 10000)] := by decide

/-- C7 counterexample: uint96 has bit-width 96 > 64, but the code maps it to
a native INTEGER column rather than TEXT, because the TEXT branch only
checks whether the type tag contains the digit runs 256 or 128. -/
theorem sqlType_uint96_counterexample :
    getSqlTypeFromEthType "uint96" = "INTEGER" ∧
    getSqlTypeFromEthType "uint96" ≠ "TEXT" := by decide

/-- The 32 bit-widths a solidity integer type tag can carry. -/
def solidityIntWidths : List Nat :=
  [8, 16, 24, 32, 40, 48, 56, 64, 72, 80, 88, 96, 104, 112, 120, 128, 136, 144, 152,
   160, 168, 176, 184, 192, 200, 208, 216, 224, 232, 240, 248, 256]

/-- C7 amended: over all solidity widths, a signed or unsigned integer type
tag is mapped to a TEXT column exactly when its width is 128 or 256
(the two widths whose decimal spelling the code tests for by substring),
and to a native INTEGER column otherwise, so widths 72 through 120 and 136
through 248 get INTEGER columns even though they exceed 64 bits. -/
theorem sqlType_width_mapping :
    ∀ w ∈ solidityIntWidths,
      getSqlTypeFromEthType ("uint" ++ toString w) =
        (if w = 128 ∨ w = 256 then "TEXT" else "INTEGER") ∧
      getSqlTypeFromEthType ("int" ++ toString w) =
        (if w = 128 ∨ w = 256 then "TEXT" else "INTEGER") := by decide

/-- C7 witness: the amended statement evaluated at widths 128 and 64. -/
theorem sqlType_width_mapping_witness :
    getSqlTypeFromEthType "uint128" = "TEXT" ∧
    getSqlTypeFromEthType "int64" = "INTEGER" := by
  exact ⟨(sqlType_width_mapping 128 (by decide)).1, (sqlType_width_mapping 64 (by decide)).2⟩

/-- C8 counterexample: an array type tag whose element type is an integer or
bytes type never reaches the array branch: uint64 arrays are mapped to
INTEGER and bytes32 arrays to BLOB, not TEXT as the claim states for every
element type. -/
theorem sqlType_array_counterexample :
    getSqlTypeFromEthType "uint64[]" = "INTEGER" ∧
    getSqlTypeFromEthType "bytes32[]" = "BLOB" ∧
    getSqlTypeFromEthType "uint64[]" ≠ "TEXT" := by decide

/-- C8 amended: an array type tag is mapped to a TEXT column whenever its
spelling does not start with uint, int or bytes and is not exactly bool
(integer arrays take the integer branch and bytes arrays the BLOB branch
first); and whenever JSON.stringify succeeds on an array value, the insert
path stores exactly that JSON string. -/
theorem sqlType_array_mapping :
    (∀ t : String, strIncludes t "[]" = true →
      strStartsWith t "uint" = false → strStartsWith t "int" = false →
      strStartsWith t "bytes" = false → t ≠ "bool" →
      getSqlTypeFromEthType t = "TEXT") ∧
    (∀ l s, jsonStringify (JsValue.jsArr l) = some s →
      formatValueForSql (JsValue.jsArr l) = Except.ok (JsValue.jsStr s)) := by
  constructor
  · intro t harr hu hi hb hbool
    unfold getSqlTypeFromEthType
    simp only [hu, hi, hb, Bool.or_self, Bool.false_eq_true, if_false]
    split_ifs <;> simp_all
  · intro l s h
    simp only [formatValueForSql, h]

/-- C8 witness: the amended statement evaluated at the address array tag and
a one-element numeric array. -/
theorem sqlType_array_mapping_witness :
    getSqlTypeFromEthType "address[]" = "TEXT" ∧
    formatValueForSql (JsValue.jsArr [JsValue.jsNum 1]) = Except.ok (JsValue.jsStr "[1]") := by
  refine ⟨sqlType_array_mapping.1 "address[]" (by decide) (by decide) (by decide)
      (by decide) (by decide), ?_⟩
  refine sqlType_array_mapping.2 [JsValue.jsNum 1] "[1]" ?_
  simp [jsonStringify, jsonStringifyList, joinSep]
  rfl

/-- Midpoint used by the range split in processContractEventRange,
fromBlock + (toBlock - fromBlock) / 2 with floor division. -/
def midBlock (a b : Nat) : Nat := a + (b - a) / 2

/-- Outcome of one underlying chain-client getLogs call: either a list of
logs, each carrying the outcome of its later per-log processing, or a
failure whose message drives the retry classification. -/
inductive FetchOut where
  | ok (logs : List (Except String Unit))
  | err (msg : String)

/-- Observable events of one unit of work: fetch attempts, backoff sleeps
in milliseconds, and the per-batch processed and error counts. -/
inductive Ev where
  | fetchAttempt (a b : Nat)
  | sleepMs (ms : Nat)
  | processedBatch (okCount errCount : Nat)
  deriving DecidableEq

/-- How a unit of work completes. -/
inductive RangeOutcome where
  | completed
  | skippedSingleBlock
  | failedLogged
  deriving DecidableEq

/-- Embedding of the per-log loop of processContractEventRange: each
individual processing failure is caught and counted, never propagated. -/
def processLogs (logs : List (Except String Unit)) : Nat × Nat :=
  logs.foldl
    (fun acc r =>
      match r with
      | .ok _ => (acc.1 + 1, acc.2)
      | .error _ => (acc.1, acc.2 + 1))
    (0, 0)

/-- Embedding of the catch block of getContractLogs: the raw failure
message is rewrapped before it reaches processContractEventRange. -/
def wrapFetchError (eventName addr : String) (a b : Nat) (m : String) : String :=
  if strIncludes m "Log response size exceeded" then
    "Too many logs for range " ++ toString a ++ "-" ++ toString b ++ ". Try smaller block range."
  else if strIncludes m "rate limit" then
    "Rate limit exceeded for range " ++ toString a ++ "-" ++ toString b ++
      ". Retrying with delay..."
  else
    "Failed to fetch logs for " ++ eventName ++ " on contract " ++ addr ++ ": " ++ m

/-- Embedding of getContractLogs: an inverted range raises an invalid-range
error inside the try block, caught and rewrapped like every other failure;
otherwise the k-th oracle outcome models the chain-client call, with
failures rewrapped by wrapFetchError. -/
def getContractLogs (oracle : Nat → FetchOut) (eventName addr : String) (a b k : Nat) :
    Except String (List (Except String Unit)) :=
  if b < a then
    .error (wrapFetchError eventName addr a b
      ("Invalid block range: fromBlock (" ++ toString a ++ ") > toBlock (" ++ toString b ++ ")"))
  else
    match oracle k with
    | .ok logs => .ok logs
    | .err m => .error (wrapFetchError eventName addr a b m)

/-- Embedding of processContractEventRange as a fuel-indexed interpreter.
Arguments after the oracle, event name and contract address: fuel,
fromBlock, toBlock, retryCount, maxRetries, fetch index. none models
running out of fuel; pcerFuelBound below always suffices. The result
carries the next fetch index, the trace of fetch attempts and sleeps, and
the completion outcome; the Except layer records an exception escaping to
the caller, which the branches of the catch block never produce but the
recursive calls made inside the catch block would propagate. -/
def processContractEventRange (oracle : Nat → FetchOut) (eventName addr : String) :
    Nat → Nat → Nat → Nat → Nat → Nat →
    Option (Nat × List Ev × Except String RangeOutcome)
  | 0, _, _, _, _, _ => none
  | fuel + 1, a, b, rc, mR, k =>
    match getContractLogs oracle eventName addr a b k with
    | .ok logs =>
      some (k + 1,
        [.fetchAttempt a b, .processedBatch (processLogs logs).1 (processLogs logs).2],
        .ok .completed)
    | .error msg =>
      if (strIncludes msg "rate limit" || strIncludes msg "429") && decide (rc + 1 ≤ mR) then
        match processContractEventRange oracle eventName addr fuel a b (rc + 1) mR (k + 1) with
        | none => none
        | some (k2, t, r) =>
          some (k2, .fetchAttempt a b :: .sleepMs (2 ^ (rc + 1) * 1000) :: t, r)
      else if strIncludes msg "Log response size exceeded" || strIncludes msg "too many logs" then
        if a = b then some (k + 1, [.fetchAttempt a b], .ok .skippedSingleBlock)
        else
          match processContractEventRange oracle eventName addr fuel a (midBlock a b) 0 mR (k + 1) with
          | none => none
          | some (k2, t1, .error e) => some (k2, .fetchAttempt a b :: t1, .error e)
          | some (k2, t1, .ok _) =>
            match processContractEventRange oracle eventName addr fuel (midBlock a b + 1) b 0 mR k2 with
            | none => none
            | some (k3, t2, .error e) => some (k3, .fetchAttempt a b :: (t1 ++ t2), .error e)
            | some (k3, t2, .ok _) => some (k3, .fetchAttempt a b :: (t1 ++ t2), .ok .completed)
      else if decide (mR < rc + 1) then
        some (k + 1, [.fetchAttempt a b], .ok .failedLogged)
      else
        match processContractEventRange oracle eventName addr fuel a b (rc + 1) mR (k + 1) with
        | none => none
        | some (k2, t, r) =>
          some (k2, .fetchAttempt a b :: .sleepMs (1000 * (rc + 1)) :: t, r)

/-- Fuel that always suffices for processContractEventRange on a valid
range with retryCount at most maxRetries. -/
def pcerFuelBound (a b rc mR : Nat) : Nat :=
  (mR + 1 - rc) + (mR + 2) * (2 * (b - a))

theorem pcerFuelBound_retry (a b rc mR : Nat) (h : rc < mR) :
    pcerFuelBound a b (rc + 1) mR + 1 ≤ pcerFuelBound a b rc mR := by
  unfold pcerFuelBound
  generalize (mR + 2) * (2 * (b - a)) = p
  omega

theorem pcerFuelBound_split (a b a2 b2 rc mR : Nat) (hlt : b2 - a2 < b - a) (hrc : rc ≤ mR) :
    pcerFuelBound a2 b2 0 mR + 1 ≤ pcerFuelBound a b rc mR := by
  unfold pcerFuelBound
  have key : 2 * (b2 - a2) + 2 ≤ 2 * (b - a) := by omega
  have h2 : (mR + 2) * (2 * (b2 - a2) + 2) ≤ (mR + 2) * (2 * (b - a)) :=
    Nat.mul_le_mul_left _ key
  rw [Nat.mul_add] at h2
  generalize hp : (mR + 2) * (2 * (b2 - a2)) = p at h2
  generalize hq : (mR + 2) * (2 * (b - a)) = q at h2
  omega

theorem processContractEventRange_total (oracle : Nat → FetchOut) (eventName addr : String) :
    ∀ fuel a b rc mR k, a ≤ b → rc ≤ mR → pcerFuelBound a b rc mR ≤ fuel →
      ∃ k2 t o, processContractEventRange oracle eventName addr fuel a b rc mR k =
        some (k2, t, Except.ok o) := by
  intro fuel
  induction fuel with
  | zero =>
    intro a b rc mR k _hab hrc hfb
    unfold pcerFuelBound at hfb
    omega
  | succ fuel ih =>
    intro a b rc mR k hab hrc hfb
    simp only [processContractEventRange]
    cases hE : getContractLogs oracle eventName addr a b k with
    | ok logs => exact ⟨_, _, _, rfl⟩
    | error msg =>
      dsimp only
      by_cases hrl : ((strIncludes msg "rate limit" || strIncludes msg "429")
          && decide (rc + 1 ≤ mR)) = true
      · rw [if_pos hrl]
        have hrc1 : rc + 1 ≤ mR := by
          simp only [Bool.and_eq_true, decide_eq_true_eq] at hrl
          exact hrl.2
        have hfb1 := pcerFuelBound_retry a b rc mR (by omega)
        obtain ⟨k2, t, o, hP⟩ := ih a b (rc + 1) mR (k + 1) hab hrc1 (by omega)
        rw [hP]
        exact ⟨_, _, o, rfl⟩
      · rw [if_neg hrl]
        by_cases hsp : (strIncludes msg "Log response size exceeded"
            || strIncludes msg "too many logs") = true
        · rw [if_pos hsp]
          by_cases heq : a = b
          · rw [if_pos heq]
            exact ⟨_, _, _, rfl⟩
          · rw [if_neg heq]
            have hab' : a < b := lt_of_le_of_ne hab heq
            have hhalf : (b - a) / 2 < b - a := Nat.div_lt_self (by omega) (by omega)
            have hm1 : a ≤ midBlock a b := Nat.le_add_right _ _
            have hm2 : midBlock a b < b := by unfold midBlock; omega
            have hd1 : midBlock a b - a < b - a := by unfold midBlock; omega
            have hd2 : b - (midBlock a b + 1) < b - a := by unfold midBlock; omega
            have hs1 := pcerFuelBound_split a b a (midBlock a b) rc mR hd1 hrc
            obtain ⟨k2, t1, o1, h1⟩ :=
              ih a (midBlock a b) 0 mR (k + 1) hm1 (Nat.zero_le _) (by omega)
            rw [h1]
            dsimp only
            have hs2 := pcerFuelBound_split a b (midBlock a b + 1) b rc mR hd2 hrc
            obtain ⟨k3, t2, o2, h2⟩ :=
              ih (midBlock a b + 1) b 0 mR k2 (by omega) (Nat.zero_le _) (by omega)
            rw [h2]
            exact ⟨_, _, _, rfl⟩
        · rw [if_neg hsp]
          by_cases hex : decide (mR < rc + 1) = true
          · rw [if_pos hex]
            exact ⟨_, _, _, rfl⟩
          · rw [if_neg hex]
            have hrc1 : rc + 1 ≤ mR := by
              by_contra hcon
              exact hex (decide_eq_true (by omega))
            have hfb1 := pcerFuelBound_retry a b rc mR (by omega)
            obtain ⟨k2, t, o, hP⟩ := ih a b (rc + 1) mR (k + 1) hab hrc1 (by omega)
            rw [hP]
            exact ⟨_, _, o, rfl⟩

/-- C3: when a too-many-logs failure is classified on a range with a < b,
the split produces exactly the halves (a, mid) and (mid + 1, b) with
mid = a + floor((b - a) / 2); the two halves tile the original range
exactly once with no gap or overlap, each half is strictly smaller than
the original inclusive range (which is why the recursion terminates), and
a single-block range with a too-many-logs failure is skipped rather than
split: the interpreter returns skippedSingleBlock after a single fetch and
no recursion, shown on block 7 with one unit of fuel. -/
theorem split_correctness (a b : Nat) :
    (a < b →
      midBlock a b = a + (b - a) / 2 ∧
      a ≤ midBlock a b ∧ midBlock a b < b ∧
      tilesFrom a b [(a, midBlock a b), (midBlock a b + 1, b)] = true ∧
      midBlock a b - a + 1 < b - a + 1 ∧
      b - (midBlock a b + 1) + 1 < b - a + 1) ∧
    processContractEventRange (fun _ => FetchOut.err "too many logs") "Transfer" "0xabc"
        1 7 7 0 3 0 =
      some (1, [Ev.fetchAttempt 7 7], Except.ok RangeOutcome.skippedSingleBlock) := by
  constructor
  · intro hab
    have hhalf : (b - a) / 2 < b - a := Nat.div_lt_self (by omega) (by omega)
    refine ⟨rfl, Nat.le_add_right _ _, by unfold midBlock; omega, ?_, ?_, ?_⟩
    · simp only [tilesFrom, Bool.and_eq_true, decide_eq_true_eq, eq_self_iff_true,
        true_and, and_true]
      unfold midBlock
      omega
    · unfold midBlock; omega
    · unfold midBlock; omega
  · rfl

/-- C3 witness: the split facts evaluated on the range from 3 to 10,
together with the single-block skip evaluation. -/
theorem split_correctness_witness :
    tilesFrom 3 10 [(3, midBlock 3 10), (midBlock 3 10 + 1, 10)] = true ∧
    processContractEventRange (fun _ => FetchOut.err "too many logs") "Transfer" "0xabc"
        1 7 7 0 3 0 =
      some (1, [Ev.fetchAttempt 7 7], Except.ok RangeOutcome.skippedSingleBlock) := by
  have h := split_correctness 3 10
  exact ⟨(h.1 (by decide)).2.2.2.1, h.2⟩

/-- C5 evidence: a fetch that always fails with the message rate limit
exceeded is rewrapped by getContractLogs into a message starting with a
capitalised Rate, which fails the case-sensitive rate limit check in
processContractEventRange, so the unit takes the generic linear backoff of
1s, 2s, 3s rather than the exponential 2s, 4s, 8s the claim states, still
performing 4 total fetch attempts and then returning normally as a logged
failure. A fetch failure whose message reaches the driver containing 429
does take the exponential 2s, 4s, 8s path the claim describes. -/
theorem rateLimit_backoff_divergence :
    processContractEventRange (fun _ => FetchOut.err "rate limit exceeded") "Transfer" "0xabc"
        5 100 200 0 3 0 =
      some (4,
        [Ev.fetchAttempt 100 200, Ev.sleepMs 1000, Ev.fetchAttempt 100 200, Ev.sleepMs 2000,
         Ev.fetchAttempt 100 200, Ev.sleepMs 3000, Ev.fetchAttempt 100 200],
        Except.ok RangeOutcome.failedLogged) ∧
    processContractEventRange (fun _ => FetchOut.err "status code 429") "Transfer" "0xabc"
        5 100 200 0 3 0 =
      some (4,
        [Ev.fetchAttempt 100 200, Ev.sleepMs 2000, Ev.fetchAttempt 100 200, Ev.sleepMs 4000,
         Ev.fetchAttempt 100 200, Ev.sleepMs 8000, Ev.fetchAttempt 100 200],
        Except.ok RangeOutcome.failedLogged) :=
  ⟨rfl, rfl⟩

/-- C6: the retry-and-split state machine never raises an exception to its
caller: for every oracle of fetch outcomes (success, rate limit, too many
logs, other error, in any combination), every valid range and every retry
ceiling, the interpreter run with the sufficient fuel bound returns
normally with a completion outcome and an ok Except layer. -/
theorem processContractEventRange_never_throws
    (oracle : Nat → FetchOut) (eventName addr : String) (a b mR k : Nat) (hab : a ≤ b) :
    ∃ k2 t o,
      processContractEventRange oracle eventName addr (pcerFuelBound a b 0 mR) a b 0 mR k =
        some (k2, t, Except.ok o) :=
  processContractEventRange_total oracle eventName addr (pcerFuelBound a b 0 mR) a b 0 mR k
    hab (Nat.zero_le _) (le_refl _)

/-- C6 witness: a concrete run at a constant failing oracle. -/
theorem processContractEventRange_never_throws_witness :
    ∃ k2 t o,
      processContractEventRange (fun _ => FetchOut.err "boom") "Transfer" "0xabc"
        (pcerFuelBound 1 1 0 0) 1 1 0 0 0 = some (k2, t, Except.ok o) :=
  processContractEventRange_never_throws (fun _ => FetchOut.err "boom") "Transfer" "0xabc"
    1 1 0 0 (le_refl 1)

/-- Model of the JavaScript toLowerCase on ASCII letters. -/
def charToLower (c : Char) : Char :=
  if 65 ≤ c.toNat && c.toNat ≤ 90 then Char.ofNat (c.toNat + 32) else c

/-- Model of the JavaScript s.toLowerCase(). -/
def strToLower (s : String) : String :=
  String.mk (s.data.map charToLower)

/-- Model of the JavaScript s.substring(n) on character lists. -/
def strDrop (s : String) (n : Nat) : String :=
  String.mk (s.data.drop n)

/-- Split of a character list at a separator character; helper for the
JavaScript split. -/
def splitOnChar : List Char → Char → List (List Char)
  | [], _ => [[]]
  | c :: cs, sep =>
    if c == sep then [] :: splitOnChar cs sep
    else
      match splitOnChar cs sep with
      | [] => [[c]]
      | r :: rs => (c :: r) :: rs

/-- Model of the JavaScript s.split(sep) for a one-character separator. -/
def strSplitOn (s : String) (sep : Char) : List String :=
  (splitOnChar s.data sep).map String.mk

/-- Model of the JavaScript parseInt(s, 10): leading decimal digits, none
giving NaN (modelled as none). -/
def parseIntJs (s : String) : Option Nat :=
  let ds := s.data.takeWhile (fun c => decide (48 ≤ c.toNat) && decide (c.toNat ≤ 57))
  if ds.isEmpty then none
  else some (ds.foldl (fun n c => n * 10 + (c.toNat - 48)) 0)

/-- One observed log as passed to saveLogToDatabase: address, transaction
hash, block number (a bigint), optional log index (undefined modelled as
none) and the decoded argument values in order. -/
structure EventLog where
  address : String
  transactionHash : String
  blockNumber : Int
  logIndex : Option Int
  args : List JsValue

/-- The JavaScript expression log.logIndex or 0: an absent index (and a
zero index) both store 0. -/
def logIndexOrZero (log : EventLog) : Int :=
  match log.logIndex with
  | some i => i
  | none => 0

/-- Embedding of the per-column value selection of the insert loop of
saveLogToDatabase: the four fixed columns, then param columns whose index
is parsed from the column name (param_INDEX_TYPE), out-of-range or
unparsable indices giving SQL null; the Except layer carries a
formatValueForSql failure. -/
def columnValue (log : EventLog) (col : String) : Except String JsValue :=
  if col = "contract_address" then .ok (.jsStr log.address)
  else if col = "transaction_hash" then .ok (.jsStr log.transactionHash)
  else if col = "block_number" then .ok (.jsBigInt log.blockNumber)
  else if col = "log_index" then .ok (.jsNum (logIndexOrZero log))
  else if strStartsWith col "param_" then
    match parseIntJs (((strSplitOn (strDrop col 6) '_').headD "")) with
    | some i =>
      match log.args.get? i with
      | some arg => formatValueForSql arg
      | none => .ok .jsNull
    | none => .ok .jsNull
  else .ok .jsNull

/-- Values for all insertable columns of one row, in column order; the
first formatValueForSql failure aborts the whole insert, as the thrown
exception does in the source. -/
def buildRow (log : EventLog) : List String → Except String (List (String × JsValue))
  | [] => .ok []
  | c :: cs =>
    match columnValue log c, buildRow log cs with
    | .ok v, .ok rest => .ok ((c, v) :: rest)
    | .error e, _ => .error e
    | _, .error e => .error e

/-- One event table: its insertable column names (id and timestamp
excluded) and its stored rows, each an association of column name to
stored value. -/
structure Table where
  insertableColumns : List String
  rows : List (List (String × JsValue))

/-- The database with per-batch statistics: tables keyed by table name and
the duplicate, processed and error counters tracked by the logger. -/
structure DbState where
  tables : List (String × Table)
  dupCount : Nat
  processedCount : Nat
  errorCount : Nat

/-- First value stored under a column name in a row. -/
def rowLookup : List (String × JsValue) → String → Option JsValue
  | [], _ => none
  | (n, v) :: rest, name => if n = name then some v else rowLookup rest name

/-- Lookup of a table by name. -/
def tablesLookup : List (String × Table) → String → Option Table
  | [], _ => none
  | (n, t) :: rest, name => if n = name then some t else tablesLookup rest name

/-- Replacement of a table by name. -/
def updateTable : List (String × Table) → String → Table → List (String × Table)
  | [], _, _ => []
  | (n, t) :: rest, name, t2 =>
    if n = name then (n, t2) :: rest else (n, t) :: updateTable rest name t2

/-- Membership of a string in a list of strings. -/
def strListContains : List String → String → Bool
  | [], _ => false
  | n :: rest, name => decide (n = name) || strListContains rest name

/-- Does a stored cell hold exactly this string value. -/
def cellIsStr (v : Option JsValue) (s : String) : Bool :=
  match v with
  | some (.jsStr x) => decide (x = s)
  | _ => false

/-- Does a stored cell hold exactly this numeric value. -/
def cellIsNum (v : Option JsValue) (n : Int) : Bool :=
  match v with
  | some (.jsNum x) => decide (x = n)
  | _ => false

/-- Embedding of the duplicate lookup of saveLogToDatabase: an existing row
with the same transaction_hash and log_index values. -/
def rowMatchesKey (row : List (String × JsValue)) (h : String) (i : Int) : Bool :=
  cellIsStr (rowLookup row "transaction_hash") h && cellIsNum (rowLookup row "log_index") i

/-- Embedding of saveLogToDatabase: no table means nothing happens; a row
with the same (transaction_hash, log_index) bumps the duplicate counter
and returns without writing; otherwise the row is built column by column
and appended, bumping the processed counter, and a value-building failure
is caught by the surrounding catch, bumping the error counter. -/
def saveLogToDatabase (s : DbState) (log : EventLog) (eventName : String) : DbState :=
  match tablesLookup s.tables ("event_" ++ strToLower eventName) with
  | none => s
  | some t =>
    if t.rows.any (fun r => rowMatchesKey r log.transactionHash (logIndexOrZero log)) then
      { s with dupCount := s.dupCount + 1 }
    else
      match buildRow log t.insertableColumns with
      | .error _ => { s with errorCount := s.errorCount + 1 }
      | .ok row =>
        { s with
          tables := updateTable s.tables ("event_" ++ strToLower eventName)
            { t with rows := t.rows ++ [row] },
          processedCount := s.processedCount + 1 }

theorem tablesLookup_updateTable (l : List (String × Table)) (name : String)
    (t t2 : Table) (h : tablesLookup l name = some t) :
    tablesLookup (updateTable l name t2) name = some t2 := by
  induction l with
  | nil => simp [tablesLookup] at h
  | cons p rest ih =>
    obtain ⟨n, t0⟩ := p
    by_cases hn : n = name
    · simp [tablesLookup, updateTable, hn]
    · simp only [tablesLookup, updateTable, if_neg hn] at h ⊢
      exact ih h

theorem buildRow_lookup (log : EventLog) :
    ∀ cols row c, buildRow log cols = Except.ok row → c ∈ cols →
      ∃ v, columnValue log c = Except.ok v ∧ rowLookup row c = some v := by
  intro cols
  induction cols with
  | nil => intro row c _ hc; simp at hc
  | cons c0 cs ih =>
    intro row c hrow hc
    simp only [buildRow] at hrow
    cases hv : columnValue log c0 with
    | error e => rw [hv] at hrow; simp at hrow
    | ok v0 =>
      cases hr : buildRow log cs with
      | error e => rw [hv, hr] at hrow; simp at hrow
      | ok rest =>
        rw [hv, hr] at hrow
        simp only [Except.ok.injEq] at hrow
        subst hrow
        by_cases hc0 : c0 = c
        · subst hc0
          exact ⟨v0, hv, by simp [rowLookup]⟩
        · rcases List.mem_cons.mp hc with hceq | hcs
          · exact absurd hceq.symm hc0
          · obtain ⟨v, hvv, hlv⟩ := ih rest c hr hcs
            exact ⟨v, hvv, by simp [rowLookup, if_neg hc0, hlv]⟩

/-- C4: inserting the same log twice yields exactly one stored row. With the
event table present, no pre-existing row under the key, and the row values
building successfully, the first call appends exactly the built row and
bumps the processed counter; the stored table then holds exactly one row
matching the (transaction_hash, log_index) key; and the second call only
bumps the duplicate counter, leaving tables (hence the first row) and the
other counters unchanged. -/
theorem saveLog_idempotent
    (s : DbState) (log : EventLog) (eventName : String) (t : Table)
    (row : List (String × JsValue))
    (hT : tablesLookup s.tables ("event_" ++ strToLower eventName) = some t)
    (hNoDup : t.rows.any
      (fun r => rowMatchesKey r log.transactionHash (logIndexOrZero log)) = false)
    (hRow : buildRow log t.insertableColumns = Except.ok row)
    (hTx : "transaction_hash" ∈ t.insertableColumns)
    (hLi : "log_index" ∈ t.insertableColumns) :
    saveLogToDatabase s log eventName =
      { s with
        tables := updateTable s.tables ("event_" ++ strToLower eventName)
          { t with rows := t.rows ++ [row] },
        processedCount := s.processedCount + 1 } ∧
    (t.rows ++ [row]).countP
      (fun r => rowMatchesKey r log.transactionHash (logIndexOrZero log)) = 1 ∧
    saveLogToDatabase (saveLogToDatabase s log eventName) log eventName =
      { saveLogToDatabase s log eventName with
        dupCount := (saveLogToDatabase s log eventName).dupCount + 1 } := by
  have hmatch : rowMatchesKey row log.transactionHash (logIndexOrZero log) = true := by
    obtain ⟨v1, hv1, hl1⟩ := buildRow_lookup log t.insertableColumns row
      "transaction_hash" hRow hTx
    obtain ⟨v2, hv2, hl2⟩ := buildRow_lookup log t.insertableColumns row
      "log_index" hRow hLi
    have e1 : columnValue log "transaction_hash" =
        Except.ok (JsValue.jsStr log.transactionHash) := rfl
    have e2 : columnValue log "log_index" =
        Except.ok (JsValue.jsNum (logIndexOrZero log)) := rfl
    rw [e1] at hv1
    rw [e2] at hv2
    simp only [Except.ok.injEq] at hv1 hv2
    subst hv1
    subst hv2
    unfold rowMatchesKey cellIsStr cellIsNum
    rw [hl1, hl2]
    simp
  have h1 : saveLogToDatabase s log eventName =
      { s with
        tables := updateTable s.tables ("event_" ++ strToLower eventName)
          { t with rows := t.rows ++ [row] },
        processedCount := s.processedCount + 1 } := by
    unfold saveLogToDatabase
    rw [hT]
    dsimp only
    rw [if_neg (by rw [hNoDup]; exact Bool.false_ne_true)]
    rw [hRow]
  have hcount : (t.rows ++ [row]).countP
      (fun r => rowMatchesKey r log.transactionHash (logIndexOrZero log)) = 1 := by
    rw [List.countP_append]
    have hz : t.rows.countP
        (fun r => rowMatchesKey r log.transactionHash (logIndexOrZero log)) = 0 := by
      rw [List.countP_eq_zero]
      intro r hr
      have := List.any_eq_false.mp hNoDup r hr
      simpa using this
    rw [hz]
    simp [List.countP_cons, hmatch]
  refine ⟨h1, hcount, ?_⟩
  rw [h1]
  unfold saveLogToDatabase
  dsimp only
  rw [tablesLookup_updateTable s.tables ("event_" ++ strToLower eventName) t _ hT]
  dsimp only
  rw [if_pos (by
    rw [List.any_append]
    simp [hNoDup, hmatch])]

/-- Concrete database with one empty transfer table, for the C4 witness. -/
def sampleState : DbState :=
  ⟨[("event_transfer",
      ⟨["contract_address", "transaction_hash", "block_number", "log_index",
        "param_0_uint256"], []⟩)], 0, 0, 0⟩

/-- Concrete log for the C4 witness. -/
def sampleLog : EventLog :=
  ⟨"0xadd", "0xhash", 5, some 2, [JsValue.jsBigInt 7]⟩

/-- Row that sampleLog inserts into sampleState. -/
def sampleRow : List (String × JsValue) :=
  [("contract_address", .jsStr "0xadd"), ("transaction_hash", .jsStr "0xhash"),
   ("block_number", .jsBigInt 5), ("log_index", .jsNum 2), ("param_0_uint256", .jsStr "7")]

/-- C4 witness: the idempotence statement evaluated on the sample store. -/
theorem saveLog_idempotent_witness :
    (([] : List (List (String × JsValue))) ++ [sampleRow]).countP
      (fun r => rowMatchesKey r "0xhash" 2) = 1 ∧
    saveLogToDatabase (saveLogToDatabase sampleState sampleLog "Transfer") sampleLog
        "Transfer" =
      { saveLogToDatabase sampleState sampleLog "Transfer" with
        dupCount := (saveLogToDatabase sampleState sampleLog "Transfer").dupCount + 1 } := by
  have h := saveLog_idempotent sampleState sampleLog "Transfer"
    ⟨["contract_address", "transaction_hash", "block_number", "log_index",
      "param_0_uint256"], []⟩
    sampleRow rfl rfl rfl (by simp) (by simp)
  exact ⟨h.2.1, h.2.2⟩

/-- Options accepted by getLogsFromDatabase, after defaulting. -/
structure QueryOptions where
  filters : List (String × JsValue)
  limit : Int
  offset : Int
  orderBy : String
  orderDirection : String

/-- Embedding of the WHERE clause construction of getLogsFromDatabase. -/
def buildWhereClause (filters : List (String × JsValue)) : String :=
  if filters.isEmpty then ""
  else "WHERE " ++ joinSep " AND " (filters.map (fun kv => kv.1 ++ " = ?"))

/-- Filter values passed to the prepared statement, each through
formatValueForSql; the first failure aborts, as the thrown exception
does in the source. -/
def buildFilterValues : List (String × JsValue) → Except String (List JsValue)
  | [] => .ok []
  | kv :: rest =>
    match formatValueForSql kv.2, buildFilterValues rest with
    | .ok v, .ok vs => .ok (v :: vs)
    | .error e, _ => .error e
    | _, .error e => .error e

/-- The storage collaborators of getLogsFromDatabase: the set of existing
table names, the prepared-statement execution (which fails on an invalid
column in the generated SQL), and the JSON.parse builtin (none models a
parse failure). -/
structure DbEngine where
  tableNames : List String
  run : String → List JsValue → Except String (List (List (String × JsValue)))
  jsonParse : String → Option JsValue

/-- Embedding of the per-cell postprocessing of getLogsFromDatabase:
strings that look like JSON arrays or objects are parsed, keeping the raw
string when parsing fails; everything else passes through. -/
def parseCell (jsonParse : String → Option JsValue) : JsValue → JsValue
  | .jsStr s =>
    if strStartsWith s "[" || strStartsWith s "\x7b" then
      match jsonParse s with
      | some parsed => parsed
      | none => .jsStr s
    else .jsStr s
  | v => v

/-- Embedding of the body of the try block of getLogsFromDatabase: missing
table returns the empty list, then the filter values and the SQL text are
built and executed, and each result cell is postprocessed. -/
def getLogsBody (eng : DbEngine) (eventName : String) (opts : QueryOptions) :
    Except String (List (List (String × JsValue))) :=
  if strListContains eng.tableNames ("event_" ++ strToLower eventName) = false then .ok []
  else
    match buildFilterValues opts.filters with
    | .error e => .error e
    | .ok filterValues =>
      match eng.run
          ("SELECT * FROM " ++ ("event_" ++ strToLower eventName) ++ " " ++
            buildWhereClause opts.filters ++ " ORDER BY " ++ opts.orderBy ++ " " ++
            opts.orderDirection ++ " LIMIT ? OFFSET ?")
          (filterValues ++ [.jsNum opts.limit, .jsNum opts.offset]) with
      | .error e => .error e
      | .ok results =>
        .ok (results.map (fun row => row.map (fun kv => (kv.1, parseCell eng.jsonParse kv.2))))

/-- Embedding of getLogsFromDatabase: the whole body runs inside a try
whose catch returns the empty list. -/
def getLogsFromDatabase (eng : DbEngine) (eventName : String) (opts : QueryOptions) :
    List (List (String × JsValue)) :=
  match getLogsBody eng eventName opts with
  | .ok r => r
  | .error _ => []

/-- C10: the query operation never raises: a missing table yields the empty
list, and any internal failure of the generated statement (invalid filter
column, invalid orderBy column, or any other engine error) is caught and
also yields the empty list, for every engine, event name and options. -/
theorem getLogs_never_throws (eng : DbEngine) (eventName : String) (opts : QueryOptions) :
    (strListContains eng.tableNames ("event_" ++ strToLower eventName) = false →
      getLogsFromDatabase eng eventName opts = []) ∧
    (∀ e, getLogsBody eng eventName opts = Except.error e →
      getLogsFromDatabase eng eventName opts = []) := by
  constructor
  · intro h
    have hb : getLogsBody eng eventName opts = Except.ok [] := by
      unfold getLogsBody
      rw [if_pos h]
    unfold getLogsFromDatabase
    rw [hb]
  · intro e h
    unfold getLogsFromDatabase
    rw [h]

/-- Engine whose prepared statement always fails, as on an invalid orderBy
column; for the C10 witness. -/
def failingEngine : DbEngine :=
  ⟨["event_transfer"], fun _ _ => .error "no such column: bogus", fun _ => none⟩

/-- C10 witness: a failing statement on an existing table yields the empty
list. -/
theorem getLogs_never_throws_witness :
    getLogsFromDatabase failingEngine "Transfer" ⟨[], 100, 0, "bogus", "DESC"⟩ = [] := by
  exact (getLogs_never_throws failingEngine "Transfer" ⟨[], 100, 0, "bogus", "DESC"⟩).2
    "no such column: bogus" rfl

/-- C9: a uint256 argument of value 10 to the 18th is kept as a decimal
string end to end: the column type is TEXT, the insert path stores the
decimal string produced from the bigint, the read-side postprocessing
leaves such a string untouched for every JSON.parse behaviour, and a full
query run returns the row with exactly that string. -/
theorem uint256_roundtrip_text :
    getSqlTypeFromEthType "uint256" = "TEXT" ∧
    formatValueForSql (JsValue.jsBigInt 1000000000000000000) =
      Except.ok (JsValue.jsStr "1000000000000000000") ∧
    (∀ jp : String → Option JsValue,
      parseCell jp (JsValue.jsStr "1000000000000000000") =
        JsValue.jsStr "1000000000000000000") ∧
    (∀ jp : String → Option JsValue,
      getLogsFromDatabase
        ⟨["event_transfer"],
         fun _ _ => Except.ok [[("param_0_uint256", JsValue.jsStr "1000000000000000000")]],
         jp⟩
        "Transfer" ⟨[], 100, 0, "timestamp", "DESC"⟩ =
      [[("param_0_uint256", JsValue.jsStr "1000000000000000000")]]) :=
  ⟨rfl, rfl, fun _ => rfl, fun _ => rfl⟩

end Bindexer
